import Mathlib

/-!
Verification of the proxy/aggregation core of a small nutrition backend
(single HTTP server file).  The JavaScript source is shallowly embedded:
JS numbers that are only compared and scaled are modelled as rationals,
`Math.round` as floor of x + 1/2, JS truthiness of strings and numbers is
modelled explicitly, and network calls are modelled by passing the decoded
responses (or transport failures) as function arguments.  Fallible
operations return `Except`/`Option`.
-/

/-- JS `Math.round`: floor of x + 1/2 (round half toward positive infinity). -/
def jsRound (x : ℚ) : ℤ := Int.floor (x + 1/2)

/-- JS truthiness of a possibly-absent number: `undefined`, `null` and `0`
are falsy; used to model `a || b` chains over numeric JSON fields. -/
def qTruthy (o : Option ℚ) : Option ℚ :=
  match o with
  | some x => if x = 0 then none else some x
  | none => none

/-- Models `Number(a || b || 0)` over two possibly-absent numeric fields. -/
def pick100 (a b : Option ℚ) : ℚ :=
  match qTruthy a with
  | some x => x
  | none =>
    match qTruthy b with
    | some y => y
    | none => 0

/-- JS truthiness of a possibly-absent string: `undefined`, `null`, `""` falsy. -/
def sTruthy (o : Option String) : Option String :=
  match o with
  | some s => if s = "" then none else some s
  | none => none

/-- Models `a || b || d` over two possibly-absent string fields with default. -/
def sPick2 (a b : Option String) (d : String) : String :=
  match sTruthy a with
  | some s => s
  | none =>
    match sTruthy b with
    | some s => s
    | none => d

/-- Models `a || b || c || d` over three possibly-absent string fields. -/
def sPick3 (a b c : Option String) (d : String) : String :=
  match sTruthy a with
  | some s => s
  | none => sPick2 b c d

/-- Models `s || d` where `s` is a JS string variable that may be unset:
the empty string is falsy and also falls back to the default. -/
def jsOrS (o : Option String) (d : String) : String :=
  match o with
  | some s => if s = "" then d else s
  | none => d

/-! JSON values and a model of `JSON.parse` on character lists. -/

/-- The backtick character, used by the code-fence stripping logic. -/
def btick : Char := Char.ofNat 96

/-- JSON value; numbers are kept as mantissa times a power of ten exactly as
they are parsed (the server never does arithmetic on parsed JSON numbers). -/
inductive Json where
  | null : Json
  | bool (b : Bool) : Json
  | num (mantissa exp10 : Int) : Json
  | str (s : List Char) : Json
  | arr (elems : List Json) : Json
  | obj (fields : List (List Char × Json)) : Json

/-- Whitespace accepted by `JSON.parse` between tokens. -/
def isJsonWs (c : Char) : Bool :=
  c = ' ' || c = '\t' || c = '\n' || c = '\r'

/-- Hexadecimal digit value, for string `\u` escapes. -/
def hexVal (c : Char) : Option Nat :=
  if '0' ≤ c ∧ c ≤ '9' then some (c.toNat - 48)
  else if 'a' ≤ c ∧ c ≤ 'f' then some (c.toNat - 97 + 10)
  else if 'A' ≤ c ∧ c ≤ 'F' then some (c.toNat - 65 + 10)
  else none

/-- JSON string escape characters (after a backslash). -/
def escChar (c : Char) : Option Char :=
  if c = '"' then some '"'
  else if c = '\\' then some '\\'
  else if c = '/' then some '/'
  else if c = 'b' then some (Char.ofNat 8)
  else if c = 'f' then some (Char.ofNat 12)
  else if c = 'n' then some '\n'
  else if c = 'r' then some '\r'
  else if c = 't' then some '\t'
  else none

/-- Body of a JSON string after the opening quote: returns the decoded
characters and the remainder after the closing quote. -/
def parseStrAux (acc : List Char) : List Char → Option (List Char × List Char)
  | [] => none
  | '"' :: rest => some (acc.reverse, rest)
  | '\\' :: 'u' :: h1 :: h2 :: h3 :: h4 :: rest =>
    (match hexVal h1, hexVal h2, hexVal h3, hexVal h4 with
     | some a, some b, some c, some d =>
       parseStrAux (Char.ofNat (((a * 16 + b) * 16 + c) * 16 + d) :: acc) rest
     | _, _, _, _ => none)
  | '\\' :: c :: rest =>
    (match escChar c with
     | some e => parseStrAux (e :: acc) rest
     | none => none)
  | c :: rest =>
    if c.toNat < 32 then none else parseStrAux (c :: acc) rest

/-- Digit run to a natural number. -/
def digitsToNat (l : List Char) : Nat :=
  l.foldl (fun acc c => acc * 10 + (c.toNat - 48)) 0

/-- Exponent part of a JSON number after `e`/`E`: digits, remainder,
validity flag, negative-sign flag. -/
def expPart (t : List Char) : List Char × List Char × Bool × Bool :=
  match t with
  | '+' :: u => (u.takeWhile Char.isDigit, u.dropWhile Char.isDigit, !(u.takeWhile Char.isDigit).isEmpty, false)
  | '-' :: u => (u.takeWhile Char.isDigit, u.dropWhile Char.isDigit, !(u.takeWhile Char.isDigit).isEmpty, true)
  | _ => (t.takeWhile Char.isDigit, t.dropWhile Char.isDigit, !(t.takeWhile Char.isDigit).isEmpty, false)

/-- JSON number grammar `-?(0|[1-9][0-9]*)(.[0-9]+)?([eE][+-]?[0-9]+)?`. -/
def parseNumFrom (l : List Char) : Option (Json × List Char) :=
  let signAndRest : Bool × List Char :=
    match l with
    | '-' :: t => (true, t)
    | _ => (false, l)
  let neg := signAndRest.1
  let l1 := signAndRest.2
  let ids := l1.takeWhile Char.isDigit
  let r1 := l1.dropWhile Char.isDigit
  if ids.isEmpty then none
  else if ids.length > 1 && ids.head? == some '0' then none
  else
    let fracTriple : List Char × List Char × Bool :=
      match r1 with
      | '.' :: t => (t.takeWhile Char.isDigit, t.dropWhile Char.isDigit, !(t.takeWhile Char.isDigit).isEmpty)
      | _ => ([], r1, true)
    let fds := fracTriple.1
    let r2 := fracTriple.2.1
    if !fracTriple.2.2 then none
    else
      let expQuad : List Char × List Char × Bool × Bool :=
        match r2 with
        | 'e' :: t => expPart t
        | 'E' :: t => expPart t
        | _ => ([], r2, true, false)
      let eds := expQuad.1
      let r3 := expQuad.2.1
      if !expQuad.2.2.1 then none
      else
        let mant : Int := (if neg then -1 else 1) * (digitsToNat (ids ++ fds) : Int)
        let ev : Int := (if expQuad.2.2.2 then -1 else 1) * (digitsToNat eds : Int)
        some (Json.num mant (ev - fds.length), r3)

/-- Literal keyword tail (`rue`, `alse`, `ull`). -/
def expectLit (lit : List Char) (v : Json) (l : List Char) : Option (Json × List Char) :=
  if lit.isPrefixOf l then some (v, l.drop lit.length) else none

/-- Parser request: a value, the members of an object, or the elements of an
array (the latter two carry the fields/elements parsed so far). -/
inductive PReq where
  | val (l : List Char)
  | objFields (l : List Char) (acc : List (List Char × Json))
  | arrElems (l : List Char) (acc : List Json)

/-- Fuel-indexed recursive-descent JSON parser (the fuel only bounds the
recursion depth; `jsonParse` supplies enough for any input). -/
def parseStep : Nat → PReq → Option (Json × List Char)
  | 0, _ => none
  | fuel + 1, PReq.val l =>
    (match l with
     | [] => none
     | c :: rest =>
       if c = '{' then
         match rest.dropWhile isJsonWs with
         | '}' :: r2 => some (Json.obj [], r2)
         | r1 => parseStep fuel (PReq.objFields r1 [])
       else if c = '[' then
         match rest.dropWhile isJsonWs with
         | ']' :: r2 => some (Json.arr [], r2)
         | r1 => parseStep fuel (PReq.arrElems r1 [])
       else if c = '"' then
         match parseStrAux [] rest with
         | some (s, r) => some (Json.str s, r)
         | none => none
       else if c = 't' then expectLit ['r', 'u', 'e'] (Json.bool true) rest
       else if c = 'f' then expectLit ['a', 'l', 's', 'e'] (Json.bool false) rest
       else if c = 'n' then expectLit ['u', 'l', 'l'] Json.null rest
       else if c = '-' || c.isDigit then parseNumFrom (c :: rest)
       else none)
  | fuel + 1, PReq.objFields l acc =>
    (match l with
     | '"' :: rest =>
       (match parseStrAux [] rest with
        | some (k, r1) =>
          (match r1.dropWhile isJsonWs with
           | ':' :: r2 =>
             (match parseStep fuel (PReq.val (r2.dropWhile isJsonWs)) with
              | some (v, r3) =>
                (match r3.dropWhile isJsonWs with
                 | ',' :: r4 => parseStep fuel (PReq.objFields (r4.dropWhile isJsonWs) ((k, v) :: acc))
                 | '}' :: r4 => some (Json.obj ((k, v) :: acc).reverse, r4)
                 | _ => none)
              | none => none)
           | _ => none)
        | none => none)
     | _ => none)
  | fuel + 1, PReq.arrElems l acc =>
    (match parseStep fuel (PReq.val l) with
     | some (v, r1) =>
       (match r1.dropWhile isJsonWs with
        | ',' :: r2 => parseStep fuel (PReq.arrElems (r2.dropWhile isJsonWs) (v :: acc))
        | ']' :: r2 => some (Json.arr (v :: acc).reverse, r2)
        | _ => none)
     | none => none)

/-- Model of `JSON.parse` on a character list: whole input must be one JSON
value surrounded by whitespace. -/
def jsonParse (l : List Char) : Option Json :=
  match parseStep (2 * l.length + 2) (PReq.val (l.dropWhile isJsonWs)) with
  | some (v, rest) => if rest.dropWhile isJsonWs = [] then some v else none
  | none => none

/-! String utilities modelling the JS trim/replace/match operations used by
`parseGeminiJson`. -/

/-- Whitespace for JS `String.prototype.trim` (ASCII part; the server only
ever meets ASCII whitespace). -/
def wsB (c : Char) : Bool :=
  c = ' ' || c = '\t' || c = '\n' || c = '\r' || c = Char.ofNat 11 || c = Char.ofNat 12

/-- JS `text.trim()` on a character list. -/
def trimChars (l : List Char) : List Char :=
  ((l.dropWhile wsB).reverse.dropWhile wsB).reverse

/-- Three backticks. -/
def fence3 : List Char := [btick, btick, btick]

/-- The characters of a single-backtick `json` fence opener. -/
def fenceJsonTag : List Char := [btick, 'j', 's', 'o', 'n']

/-- JS `replace(regex ^(3 backticks)[a-zA-Z]*\n?, "")`, applied when the
string is known to start with three backticks. -/
def stripLead (l : List Char) : List Char :=
  match (l.drop 3).dropWhile Char.isAlpha with
  | '\n' :: t => t
  | r => r

/-- JS `replace(regex ^(backtick)json\n?, "")`, applied when the string is
known to start with backtick-json. -/
def stripJsonLead (l : List Char) : List Char :=
  match l.drop 5 with
  | '\n' :: t => t
  | r => r

/-- JS `replace(regex (3 backticks)$, "")`: remove a trailing triple
backtick if present. -/
def stripTrail3 (l : List Char) : List Char :=
  if l.reverse.take 3 = fence3 then (l.reverse.drop 3).reverse else l

/-- The fence-stripping phase of `parseGeminiJson`: trim, strip a leading
triple-backtick fence, then strip a leading backtick-json fence. -/
def fenceCleaned (text : List Char) : List Char :=
  let c0 := trimChars text
  let c1 := if fence3.isPrefixOf c0 then trimChars (stripTrail3 (stripLead c0)) else c0
  if fenceJsonTag.isPrefixOf c1 then trimChars (stripTrail3 (stripJsonLead c1)) else c1

/-- JS `text.match(regex brace [anything]* brace)` with a greedy star: the
substring from the first opening brace to the last closing brace after it. -/
def braceMatch (l : List Char) : Option (List Char) :=
  let s := l.dropWhile (fun c => c != '{')
  let t := (s.reverse.dropWhile (fun c => c != '}')).reverse
  if t = [] then none else some t

/-- `parseGeminiJson` from the server: return null for empty input; trim and
strip code fences, try `JSON.parse`; on failure extract the first-brace to
last-brace substring of the original text and try again; else null. -/
def parseGeminiJson (text : List Char) : Option Json :=
  if text = [] then none
  else
    match jsonParse (fenceCleaned text) with
    | some v => some v
    | none =>
      match braceMatch text with
      | some m => jsonParse m
      | none => none

/-- A model text wrapped in a triple-backtick code fence with language tag
`tag` (possibly empty), newline separated, exactly as emitted by LLMs. -/
def wrapFence (tag d : List Char) : List Char :=
  fence3 ++ tag ++ ['\n'] ++ d ++ ['\n'] ++ fence3

/-! The Generative-AI gateway (`callGemini`): nested fallback over models
and API versions. A call attempt is modelled by `respond model version`
giving the decoded HTTP response. -/

/-- Decoded response of one generation attempt: HTTP status, raw body text,
and the text part extracted by the optional chain
`json?.candidates?[0]?.content?.parts?[0]?.text || ""`. -/
structure GemResp where
  status : Int
  text : String
  partText : String

/-- The 2xx test `status >= 200 && status < 300`. -/
def ok2xx (r : GemResp) : Bool :=
  decide (200 ≤ r.status) && decide (r.status < 300)

/-- 2xx test on the `response` variable, which starts out `null`. -/
def optOk : Option GemResp → Bool
  | some r => ok2xx r
  | none => false

/-- Inner `for (const version of GEMINI_API_VERSIONS)` loop of `callGemini`:
threads the `response` and `lastError` variables, breaks on first 2xx, and
records the attempts it issues in order. -/
def geminiInner (respond : String → String → GemResp) (model : String) :
    List String → Option GemResp → Option String →
    Option GemResp × Option String × List (String × String)
  | [], response, lastError => (response, lastError, [])
  | v :: vs, _, lastError =>
    let r := respond model v
    if ok2xx r then (some r, lastError, [(model, v)])
    else
      let o := geminiInner respond model vs (some r) (some r.text)
      (o.1, o.2.1, (model, v) :: o.2.2)

/-- Outer `for (const model of GEMINI_MODELS)` loop of `callGemini`:
breaks as soon as the inner loop produced a 2xx response. -/
def geminiOuter (respond : String → String → GemResp) (versions : List String) :
    List String → Option GemResp → Option String →
    Option GemResp × Option String × List (String × String)
  | [], response, lastError => (response, lastError, [])
  | m :: ms, response, lastError =>
    let o1 := geminiInner respond m versions response lastError
    if optOk o1.1 then o1
    else
      let o2 := geminiOuter respond versions ms o1.1 o1.2.1
      (o2.1, o2.2.1, o1.2.2 ++ o2.2.2)

/-- `callGemini`: run the nested loops, then either return the extracted
text of the successful response or throw `Error(lastError || "Gemini error")`
(`lastError` holds the body text of the last failed attempt, and the empty
string is falsy). Also returns the list of attempts issued, in order. -/
def callGemini (respond : String → String → GemResp) (models versions : List String) :
    Except String String × List (String × String) :=
  let o := geminiOuter respond versions models none none
  match o.1 with
  | some r =>
    if ok2xx r then (Except.ok r.partText, o.2.2)
    else (Except.error (jsOrS o.2.1 "Gemini error"), o.2.2)
  | none => (Except.error (jsOrS o.2.1 "Gemini error"), o.2.2)

/-- The model-by-version candidate pairs in configured nested order. -/
def nestedPairs : List String → List String → List (String × String)
  | [], _ => []
  | m :: ms, vs => vs.map (fun v => (m, v)) ++ nestedPairs ms vs

/-- Prefix of a list up to and including the first element satisfying `f`
(the whole list when no element does). -/
def takeThrough {α : Type} (f : α → Bool) : List α → List α
  | [] => []
  | a :: as => if f a then [a] else a :: takeThrough f as

/-- Linear scan over candidate pairs threading `response`/`lastError`;
proof-side recombination of the two nested loops of `callGemini`. -/
def linearGo (respond : String → String → GemResp) :
    List (String × String) → Option GemResp → Option String →
    Option GemResp × Option String × List (String × String)
  | [], r, e => (r, e, [])
  | p :: ps, _, e =>
    let rr := respond p.1 p.2
    if ok2xx rr then (some rr, e, [p])
    else
      let o := linearGo respond ps (some rr) (some rr.text)
      (o.1, o.2.1, p :: o.2.2)

/-! The Token Manager (`getAccessToken`). -/

/-- The process-wide token cache `{ token: null, expiresAt: 0 }`. -/
structure TokenCache where
  token : Option String
  expiresAt : Int

/-- Parsed body of a successful token exchange. -/
structure TokenData where
  access_token : String
  expires_in : Int

/-- Outcome of the credential exchange request: transport failure (the
promise rejects) or an HTTP response whose body may or may not parse. -/
inductive TokenStep where
  | transportFail (msg : String)
  | response (status : Int) (text : String) (json : Option TokenData)

/-- JS truthiness of `tokenCache.token` (null/undefined/empty falsy). -/
def tokenTruthy (tc : TokenCache) : Bool :=
  match tc.token with
  | some t => !(t == "")
  | none => false

/-- `getAccessToken`: serve from cache when the token is truthy and
`now < expiresAt - 10_000`; otherwise run the exchange. On non-2xx throw
`FatSecret token error`; on 2xx with unparseable body accessing
`data.access_token` on `null` throws; otherwise store the new token and
`expiresAt = now + expires_in * 1000` and return it. The updated cache is
returned alongside the result. -/
def getAccessToken (now : Int) (exch : TokenStep) (tc : TokenCache) :
    Except String String × TokenCache :=
  if tokenTruthy tc = true ∧ now < tc.expiresAt - 10000 then
    (Except.ok (tc.token.getD ""), tc)
  else
    match exch with
    | TokenStep.transportFail m => (Except.error m, tc)
    | TokenStep.response status text json =>
      if status < 200 ∨ 300 ≤ status then
        (Except.error ("FatSecret token error: " ++ text), tc)
      else
        match json with
        | none => (Except.error "TypeError: Cannot read properties of null", tc)
        | some d =>
          (Except.ok d.access_token,
           { token := some d.access_token, expiresAt := now + d.expires_in * 1000 })

/-! The Open Product Gateway: nutriment normalization shared by text search
and barcode lookup. -/

/-- The `nutriments` JSON sub-object; every field possibly absent. -/
structure Nutriments where
  energyKcal100g : Option ℚ
  energyKcal : Option ℚ
  proteins100g : Option ℚ
  proteins : Option ℚ
  fat100g : Option ℚ
  fat : Option ℚ
  carbohydrates100g : Option ℚ
  carbohydrates : Option ℚ

/-- `{}`: the object used when `nutriments` is absent. -/
def emptyNutriments : Nutriments :=
  { energyKcal100g := none, energyKcal := none, proteins100g := none,
    proteins := none, fat100g := none, fat := none,
    carbohydrates100g := none, carbohydrates := none }

/-- A product entry of the text-search response. -/
structure OffProduct where
  code : Option String
  product_name : Option String
  product_name_es : Option String
  brands : Option String
  brand_owner : Option String
  image_front_small_url : Option String
  image_front_url : Option String
  image_url : Option String
  nutriments : Option Nutriments

/-- Normalized search result entry. -/
structure SearchItem where
  id : Option String
  name : String
  brand : String
  image_url : String
  kcal_100g : ℤ
  protein_100g : ℤ
  fat_100g : ℤ
  carbs_100g : ℤ

/-- The `products.map((item) => ...)` body of `fetchFoods`. -/
def mapSearchItem (item : OffProduct) : SearchItem :=
  let n := item.nutriments.getD emptyNutriments
  { id := item.code
  , name := sPick2 item.product_name item.product_name_es
      ("Producto " ++ item.code.getD "undefined")
  , brand := sPick2 item.brands item.brand_owner ""
  , image_url := sPick3 item.image_front_small_url item.image_front_url item.image_url ""
  , kcal_100g := jsRound (pick100 n.energyKcal100g n.energyKcal)
  , protein_100g := jsRound (pick100 n.proteins100g n.proteins)
  , fat_100g := jsRound (pick100 n.fat100g n.fat)
  , carbs_100g := jsRound (pick100 n.carbohydrates100g n.carbohydrates) }

/-- Normalized text-search response. -/
structure SearchResponse where
  items : List SearchItem
  count : ℚ
  page : ℚ
  pageSize : ℚ

/-- Decoded provider search JSON. -/
structure OffSearchJson where
  products : Option (List OffProduct)
  count : Option ℚ

/-- `const safePage = Number(page) > 0 ? Number(page) : 1`. -/
def safePage (page : ℚ) : ℚ := if page > 0 then page else 1

/-- `Number(pageSize) > 0 ? Math.min(Number(pageSize), 50) : 20`. -/
def safePageSize (pageSize : ℚ) : ℚ :=
  if pageSize > 0 then min pageSize 50 else 20

/-- `fetchFoods` normalization given the decoded provider response (the
base-URL fallback fetching is modelled by supplying the response that the
loop obtained). -/
def fetchFoods (page pageSize : ℚ) (searchJson : OffSearchJson) : SearchResponse :=
  { items := (searchJson.products.getD []).map mapSearchItem
  , count := pick100 searchJson.count none
  , page := safePage page
  , pageSize := safePageSize pageSize }

/-- The search route reads `page`/`page_size` query parameters:
`Number(get("page") || 1)` and `Number(get("page_size") || 12)`; a missing
(or empty) parameter is modelled as `none`. -/
def searchRouteCall (pageParam pageSizeParam : Option ℚ) (searchJson : OffSearchJson) :
    SearchResponse :=
  fetchFoods (pageParam.getD 1) (pageSizeParam.getD 12) searchJson

/-! Barcode lookup (`findFoodByBarcode`) and its HTTP route. -/

/-- One serving of the normalized barcode product / food details. -/
structure Serving where
  serving_description : List Char
  calories : ℤ
  protein : ℤ
  fat : ℤ
  carbohydrate : ℤ
  metric_serving_amount : ℚ
  metric_serving_unit : List Char

/-- The `product` object of the per-barcode provider response. -/
structure ProductJson where
  product_name : Option String
  product_name_es : Option String
  brands : Option String
  brand_owner : Option String
  image_front_url : Option String
  image_url : Option String
  image_front_small_url : Option String
  nutriments : Option Nutriments
  serving_size : Option (List Char)

/-- Normalized barcode lookup result. -/
structure BarcodeProduct where
  food_id : String
  name : String
  brand : String
  image_url : String
  servings : List Serving

/-- JS `serving_size.match(regex (\d+))`: the first maximal digit run. -/
def firstDigitRun : List Char → Option (List Char)
  | [] => none
  | c :: rest =>
    if c.isDigit then some (c :: rest.takeWhile Char.isDigit)
    else firstDigitRun rest

/-- `servingMatch ? parseInt(servingMatch[1]) : 100`. -/
def servingGramsOf (s : List Char) : ℚ :=
  match firstDigitRun s with
  | some r => (digitsToNat r : ℚ)
  | none => 100

/-- Per-100g baseline extracted from `nutriments` (each value rounded). -/
structure Per100 where
  calories : ℤ
  protein : ℤ
  fat : ℤ
  carbohydrate : ℤ

/-- The `per100g` object of `findFoodByBarcode`. -/
def per100Of (p : ProductJson) : Per100 :=
  let n := p.nutriments.getD emptyNutriments
  { calories := jsRound (pick100 n.energyKcal100g n.energyKcal)
  , protein := jsRound (pick100 n.proteins100g n.proteins)
  , fat := jsRound (pick100 n.fat100g n.fat)
  , carbohydrate := jsRound (pick100 n.carbohydrates100g n.carbohydrates) }

/-- The synthesized `100g` serving. -/
def serving100Of (p : ProductJson) : Serving :=
  let b := per100Of p
  { serving_description := "100g".toList
  , calories := b.calories, protein := b.protein, fat := b.fat
  , carbohydrate := b.carbohydrate
  , metric_serving_amount := 100, metric_serving_unit := "g".toList }

/-- The serving derived from `serving_size` by the ratio
`servingGrams / 100`, each nutrient independently rounded. -/
def derivedServingOf (p : ProductJson) (s : List Char) : Serving :=
  let b := per100Of p
  let grams := servingGramsOf s
  { serving_description := s
  , calories := jsRound ((b.calories : ℚ) * (grams / 100))
  , protein := jsRound ((b.protein : ℚ) * (grams / 100))
  , fat := jsRound ((b.fat : ℚ) * (grams / 100))
  , carbohydrate := jsRound ((b.carbohydrate : ℚ) * (grams / 100))
  , metric_serving_amount := grams, metric_serving_unit := "g".toList }

/-- The servings array: always the 100g serving; a second derived serving
exactly when `product.serving_size` is truthy (present and non-empty). -/
def buildServings (p : ProductJson) : List Serving :=
  match p.serving_size with
  | some s => if s = [] then [serving100Of p] else [serving100Of p, derivedServingOf p s]
  | none => [serving100Of p]

/-- Normalization of a found barcode product. -/
def buildBarcodeProduct (barcode : String) (p : ProductJson) : BarcodeProduct :=
  { food_id := barcode
  , name := sPick2 p.product_name p.product_name_es ("Producto " ++ barcode)
  , brand := sPick2 p.brands p.brand_owner ""
  , image_url := sPick3 p.image_front_url p.image_url p.image_front_small_url ""
  , servings := buildServings p }

/-- Decoded body of the per-barcode endpoint: the top-level `status` flag
and `product` object, both possibly absent. -/
structure BarJson where
  statusFlag : Option Int
  product : Option ProductJson

/-- A raw per-barcode HTTP response. -/
structure OffResponse where
  status : Int
  text : String
  json : Option BarJson

/-- Outcome of requesting one base URL. -/
inductive OffStep where
  | transportFail (msg : String)
  | resp (r : OffResponse)

/-- The message of the error a base-URL attempt would leave in `lastError`. -/
def errTextOf : OffStep → String
  | OffStep.transportFail m => m
  | OffStep.resp r => "Open Food Facts error: " ++ r.text

/-- The `for (const baseUrl of baseUrls)` loop of `findFoodByBarcode`:
`response` keeps the last assigned value (a rejected request does not
assign it), non-2xx or unparseable responses are caught into `lastError`,
and the loop breaks on the first 2xx response with parseable JSON. -/
def offLoop (respond : String → OffStep) :
    List String → Option OffResponse → Option String →
    Option OffResponse × Option String
  | [], r, e => (r, e)
  | u :: us, r, e =>
    match respond u with
    | OffStep.transportFail m => offLoop respond us r (some m)
    | OffStep.resp rr =>
      if rr.status < 200 ∨ 300 ≤ rr.status then
        offLoop respond us (some rr) (some ("Open Food Facts error: " ++ rr.text))
      else
        match rr.json with
        | none => offLoop respond us (some rr) (some ("Open Food Facts error: " ++ rr.text))
        | some _ => (some rr, e)

/-- `findFoodByBarcode`: run the base-URL loop; rethrow `lastError` (or a
generic error) when no parseable JSON was obtained; throw the not-found
error when the provider `status` flag is not 1; building the product from
an absent `product` object throws a TypeError. -/
def findFoodByBarcode (respond : String → OffStep) (urls : List String)
    (barcode : String) : Except String BarcodeProduct :=
  match offLoop respond urls none none with
  | (resp, lastErr) =>
    match resp with
    | none => Except.error (lastErr.getD "Open Food Facts error")
    | some r =>
      match r.json with
      | none => Except.error (lastErr.getD "Open Food Facts error")
      | some j =>
        if j.statusFlag ≠ some 1 then
          Except.error ("Producto no encontrado para código: " ++ barcode)
        else
          match j.product with
          | some p => Except.ok (buildBarcodeProduct barcode p)
          | none => Except.error "TypeError: Cannot read properties of undefined"

/-- Substring test, modelling JS `String.prototype.includes`. -/
def hasSub (needle : List Char) : List Char → Bool
  | [] => needle.isPrefixOf []
  | c :: rest => needle.isPrefixOf (c :: rest) || hasSub needle rest

/-- The marker the barcode route greps for in error messages. -/
def notFoundMarker : List Char := "Producto no encontrado".toList

/-- The barcode route: 200 on success, else 404 when the error message
contains the not-found marker, 500 otherwise. -/
def barcodeRouteStatus (respond : String → OffStep) (urls : List String)
    (barcode : String) : Int :=
  match findFoodByBarcode respond urls barcode with
  | Except.ok _ => 200
  | Except.error m => if hasSub notFoundMarker m.toList then 404 else 500

/-- Truthiness of `product.serving_size`. -/
def servingSizeTruthy (p : ProductJson) : Bool :=
  match p.serving_size with
  | some s => !s.isEmpty
  | none => false

/-! The in-memory search response cache. -/

/-- One cache entry: value plus absolute expiry time. -/
structure CacheEntry where
  data : SearchResponse
  expiresAt : Int

/-- `Map.prototype.get` on an association list with unique keys. -/
def mapGet : List (String × CacheEntry) → String → Option CacheEntry
  | [], _ => none
  | (k', v) :: rest, k => if k' = k then some v else mapGet rest k

/-- `Map.prototype.set`: replace in place or append. -/
def mapSet : List (String × CacheEntry) → String → CacheEntry → List (String × CacheEntry)
  | [], k, v => [(k, v)]
  | (k', v') :: rest, k, v =>
    if k' = k then (k, v) :: rest else (k', v') :: mapSet rest k v

/-- `Map.prototype.delete` (extensionally, on unique-key maps). -/
def mapDelete (c : List (String × CacheEntry)) (k : String) :
    List (String × CacheEntry) :=
  c.filter (fun e => e.1 != k)

/-- `SEARCH_CACHE_TTL_MS = 5 * 60 * 1000`. -/
def SEARCH_CACHE_TTL : Int := 5 * 60 * 1000

/-- `searchCache.set(key, { data, expiresAt: Date.now() + TTL })`. -/
def cachePut (c : List (String × CacheEntry)) (k : String) (v : SearchResponse)
    (now : Int) : List (String × CacheEntry) :=
  mapSet c k { data := v, expiresAt := now + SEARCH_CACHE_TTL }

/-- The route's cache lookup: a hit while `expiresAt > now`; an expired
entry is a miss and is deleted eagerly. -/
def cacheLookup (c : List (String × CacheEntry)) (k : String) (now : Int) :
    Option SearchResponse × List (String × CacheEntry) :=
  match mapGet c k with
  | some e => if e.expiresAt > now then (some e.data, c) else (none, mapDelete c k)
  | none => (none, c)

/-! Concrete example data used by witnesses and counterexamples. -/

/-- An empty decoded search response. -/
def emptySearchJson : OffSearchJson := { products := none, count := none }

/-- A sample cached search response value. -/
def vEx : SearchResponse := { items := [], count := 0, page := 1, pageSize := 20 }

/-- Sample nutriments: 101 kcal per 100 g, everything else absent. -/
def nEx : Nutriments := { emptyNutriments with energyKcal100g := some ((101 : ℤ) : ℚ) }

/-- Sample barcode product with a `250g` serving size. -/
def pEx : ProductJson :=
  { product_name := some "Agua", product_name_es := none, brands := none,
    brand_owner := none, image_front_url := none, image_url := none,
    image_front_small_url := none, nutriments := some nEx,
    serving_size := some "250g".toList }

/-- Generation oracle succeeding only at model `b`, version `x`. -/
def gRespondEx : String → String → GemResp := fun m v =>
  if m = "b" ∧ v = "x" then { status := 200, text := "", partText := "OK" }
  else { status := 500, text := "err", partText := "" }

/-- Generation oracle failing everywhere with body `bad`. -/
def gFailEx : String → String → GemResp :=
  fun _ _ => { status := 500, text := "bad", partText := "" }

/-- Token cache holding a valid token. -/
def tcEx : TokenCache := { token := some "tok", expiresAt := 1000000 }

/-- Parsed token-exchange response body. -/
def tdEx : TokenData := { access_token := "new", expires_in := 3600 }

/-- Barcode responder: HTTP 500 yet parseable JSON with status flag 0. -/
def offRespondNF : String → OffStep := fun _ =>
  OffStep.resp { status := 500, text := "boom",
                 json := some { statusFlag := some 0, product := none } }

/-- Barcode responder: success with status flag 1 and product `pEx`. -/
def offRespondOk : String → OffStep := fun _ =>
  OffStep.resp { status := 200, text := "",
                 json := some { statusFlag := some 1, product := some pEx } }

/-- Barcode responder: HTTP 500 with unparseable body `boom`. -/
def offRespondBad : String → OffStep := fun _ =>
  OffStep.resp { status := 500, text := "boom", json := none }

/-- First element satisfying `f` (self-contained `find?`). -/
def findFirst {α : Type} (f : α → Bool) : List α → Option α
  | [] => none
  | a :: as => if f a then some a else findFirst f as

/-- Last element of a list. -/
def lastOf {α : Type} : List α → Option α
  | [] => none
  | [a] => some a
  | _ :: a :: as => lastOf (a :: as)

/-! Generic helper lemmas. -/

/-- `jsRound` rounds to a nearest integer: it is within 1/2 of its input. -/
theorem jsRound_nearest (x : ℚ) : |((jsRound x : ℤ) : ℚ) - x| ≤ 1/2 := by
  rw [jsRound, abs_le]
  constructor
  · have h := Int.lt_floor_add_one (x + 1/2)
    push_cast at h ⊢
    linarith
  · have h := Int.floor_le (x + 1/2)
    push_cast at h ⊢
    linarith

/-- `jsRound` is the identity on integers. -/
theorem jsRound_intCast (c : ℤ) : jsRound ((c : ℤ) : ℚ) = c := by
  rw [jsRound, add_comm, Int.floor_add_int]
  norm_num

/-- `mapGet` after `mapSet` with the same key finds the new entry. -/
theorem mapGet_mapSet_self (c : List (String × CacheEntry)) (k : String) (v : CacheEntry) :
    mapGet (mapSet c k v) k = some v := by
  induction c with
  | nil => simp [mapSet, mapGet]
  | cons hd t ih =>
    obtain ⟨k', v'⟩ := hd
    by_cases hk : k' = k
    · simp [mapSet, hk, mapGet]
    · simp [mapSet, hk, mapGet, ih]

/-- `mapGet` after `mapDelete` with the same key misses. -/
theorem mapGet_mapDelete_self (c : List (String × CacheEntry)) (k : String) :
    mapGet (mapDelete c k) k = none := by
  induction c with
  | nil => simp [mapDelete, mapGet]
  | cons hd t ih =>
    obtain ⟨k', v'⟩ := hd
    by_cases hk : k' = k
    · simpa [mapDelete, List.filter_cons, hk] using ih
    · simpa [mapDelete, List.filter_cons, hk, mapGet] using ih

/-! Claim theorems. -/

/-- Claim C2: a `getToken` call at time `now` with a truthy cached token and
`now < expiresAt - 10s` returns the identical cached token and leaves the
cache unchanged, for every possible exchange outcome (hence no exchange is
consulted); otherwise the exchange runs, and on a 2xx parseable response the
new token is stored with `expiresAt = now + expires_in * 1000` and
returned. -/
theorem c2_token_cache : ∀ (now : Int) (exch : TokenStep) (tc : TokenCache),
    (∀ t, tc.token = some t → t ≠ "" → now < tc.expiresAt - 10000 →
      getAccessToken now exch tc = (Except.ok t, tc))
    ∧ (∀ status text d, ¬(tokenTruthy tc = true ∧ now < tc.expiresAt - 10000) →
      200 ≤ status → status < 300 →
      getAccessToken now (TokenStep.response status text (some d)) tc =
        (Except.ok d.access_token,
         { token := some d.access_token, expiresAt := now + d.expires_in * 1000 })) := by
  intro now exch tc
  constructor
  · intro t ht hne hlt
    have htr : tokenTruthy tc = true := by
      simp [tokenTruthy, ht, hne]
    unfold getAccessToken
    rw [if_pos ⟨htr, hlt⟩, ht]
    rfl
  · intro status text d hnc h1 h2
    unfold getAccessToken
    rw [if_neg hnc]
    dsimp only
    have hs : ¬(status < 200 ∨ 300 ≤ status) := by omega
    rw [if_neg hs]

/-- Claim C2 witness: cached hit at `now = 0` with expiry at 1000000; and a
fresh exchange from an empty cache storing `expiresAt = 0 + 3600 * 1000`. -/
theorem c2_token_cache_witness :
    getAccessToken 0 (TokenStep.transportFail "x") tcEx = (Except.ok "tok", tcEx)
    ∧ getAccessToken 0 (TokenStep.response 200 "" (some tdEx)) { token := none, expiresAt := 0 } =
      (Except.ok "new", { token := some "new", expiresAt := 0 + 3600 * 1000 }) := by
  constructor
  · exact (c2_token_cache 0 (TokenStep.transportFail "x") tcEx).1 "tok" rfl
      (by decide) (by decide)
  · exact (c2_token_cache 0 (TokenStep.response 200 "" (some tdEx))
      { token := none, expiresAt := 0 }).2 200 "" tdEx (by decide) (by decide) (by decide)

/-- Claim C9: when the credential exchange fails — transport error or
non-2xx status — the token cache is returned exactly unchanged. -/
theorem c9_token_error_atomic : ∀ (now : Int) (tc : TokenCache),
    (∀ m, (getAccessToken now (TokenStep.transportFail m) tc).2 = tc)
    ∧ (∀ status text json, status < 200 ∨ 300 ≤ status →
      (getAccessToken now (TokenStep.response status text json) tc).2 = tc) := by
  intro now tc
  constructor
  · intro m
    unfold getAccessToken
    by_cases h : tokenTruthy tc = true ∧ now < tc.expiresAt - 10000
    · rw [if_pos h]
    · rw [if_neg h]
  · intro status text json h
    unfold getAccessToken
    by_cases hc : tokenTruthy tc = true ∧ now < tc.expiresAt - 10000
    · rw [if_pos hc]
    · rw [if_neg hc]
      dsimp only
      rw [if_pos h]

/-- Claim C9 witness: a 500 exchange response against an empty cache leaves
the cache empty. -/
theorem c9_token_error_atomic_witness :
    (getAccessToken 5 (TokenStep.response 500 "x" none) { token := none, expiresAt := 0 }).2 =
      { token := none, expiresAt := 0 } :=
  (c9_token_error_atomic 5 { token := none, expiresAt := 0 }).2 500 "x" none (by decide)

/-- Claim C6: a `put` followed immediately by a `get` with the same key hits
and returns the stored value with the cache unchanged; the stored entry
expires exactly `SEARCH_CACHE_TTL = 5` minutes after the put; and a `get` at
or after an entry's expiry misses and removes the entry. -/
theorem c6_cache : ∀ (c : List (String × CacheEntry)) (k : String) (v : SearchResponse)
    (now : Int),
    (cacheLookup (cachePut c k v now) k now = (some v, cachePut c k v now))
    ∧ (mapGet (cachePut c k v now) k = some { data := v, expiresAt := now + SEARCH_CACHE_TTL })
    ∧ (∀ e now', mapGet c k = some e → e.expiresAt ≤ now' →
        cacheLookup c k now' = (none, mapDelete c k) ∧ mapGet (mapDelete c k) k = none) := by
  intro c k v now
  refine ⟨?_, ?_, ?_⟩
  · unfold cacheLookup cachePut
    rw [mapGet_mapSet_self]
    dsimp only
    have hgt : now + SEARCH_CACHE_TTL > now := by
      have : (0 : Int) < SEARCH_CACHE_TTL := by norm_num [SEARCH_CACHE_TTL]
      omega
    rw [if_pos hgt]
  · exact mapGet_mapSet_self c k _
  · intro e now' he hle
    refine ⟨?_, mapGet_mapDelete_self c k⟩
    unfold cacheLookup
    rw [he]
    dsimp only
    rw [if_neg (by omega : ¬ e.expiresAt > now')]

/-- Claim C6 witness: an entry put at time 0 expires at 300000: looking it
up then misses and removes it. -/
theorem c6_cache_witness :
    cacheLookup (cachePut [] "k" vEx 0) "k" 300000 =
      (none, mapDelete (cachePut [] "k" vEx 0) "k")
    ∧ mapGet (mapDelete (cachePut [] "k" vEx 0) "k") "k" = none :=
  (c6_cache (cachePut [] "k" vEx 0) "k" vEx 0).2.2
    { data := vEx, expiresAt := 0 + SEARCH_CACHE_TTL } 300000 rfl
    (by norm_num [SEARCH_CACHE_TTL])

/-- Claim C8: every nutrient field of a mapped search item is exactly
`jsRound` of the selected source value (the 100g-normalized field, else its
base fallback, else 0); each field is an integer within 1/2 of that source
value; and an absent source yields 0. Negative zero does not exist in the
integer codomain. -/
theorem c8_nutrient_round : ∀ item : OffProduct,
    ((mapSearchItem item).kcal_100g =
      jsRound (pick100 ((item.nutriments.getD emptyNutriments).energyKcal100g)
        ((item.nutriments.getD emptyNutriments).energyKcal)))
    ∧ ((mapSearchItem item).protein_100g =
      jsRound (pick100 ((item.nutriments.getD emptyNutriments).proteins100g)
        ((item.nutriments.getD emptyNutriments).proteins)))
    ∧ ((mapSearchItem item).fat_100g =
      jsRound (pick100 ((item.nutriments.getD emptyNutriments).fat100g)
        ((item.nutriments.getD emptyNutriments).fat)))
    ∧ ((mapSearchItem item).carbs_100g =
      jsRound (pick100 ((item.nutriments.getD emptyNutriments).carbohydrates100g)
        ((item.nutriments.getD emptyNutriments).carbohydrates)))
    ∧ |(((mapSearchItem item).kcal_100g : ℤ) : ℚ) -
        pick100 ((item.nutriments.getD emptyNutriments).energyKcal100g)
          ((item.nutriments.getD emptyNutriments).energyKcal)| ≤ 1/2
    ∧ |(((mapSearchItem item).protein_100g : ℤ) : ℚ) -
        pick100 ((item.nutriments.getD emptyNutriments).proteins100g)
          ((item.nutriments.getD emptyNutriments).proteins)| ≤ 1/2
    ∧ |(((mapSearchItem item).fat_100g : ℤ) : ℚ) -
        pick100 ((item.nutriments.getD emptyNutriments).fat100g)
          ((item.nutriments.getD emptyNutriments).fat)| ≤ 1/2
    ∧ |(((mapSearchItem item).carbs_100g : ℤ) : ℚ) -
        pick100 ((item.nutriments.getD emptyNutriments).carbohydrates100g)
          ((item.nutriments.getD emptyNutriments).carbohydrates)| ≤ 1/2
    ∧ jsRound (pick100 none none) = 0 := by
  intro item
  refine ⟨rfl, rfl, rfl, rfl, jsRound_nearest _, jsRound_nearest _,
    jsRound_nearest _, jsRound_nearest _, ?_⟩
  show jsRound 0 = 0
  rw [jsRound]
  norm_num

/-- Claim C5 counterexample: with the `page_size` parameter missing, the
effective page size is 12 (the route inlines `|| 12`), not the claimed
default 20; and a requested page size of 1 is served as 1, which does not
lie in the claimed open-below interval (1, 50]. -/
theorem c5_paging_counterexample :
    (searchRouteCall none none emptySearchJson).pageSize = 12
    ∧ ¬((searchRouteCall none none emptySearchJson).pageSize = 20)
    ∧ (searchRouteCall (some 1) (some 1) emptySearchJson).pageSize = 1
    ∧ ¬(1 < (searchRouteCall (some 1) (some 1) emptySearchJson).pageSize) := by
  have h12 : (searchRouteCall none none emptySearchJson).pageSize = 12 := by
    show safePageSize 12 = 12
    rw [safePageSize, if_pos (by norm_num : (12 : ℚ) > 0)]
    norm_num
  have h1 : (searchRouteCall (some 1) (some 1) emptySearchJson).pageSize = 1 := by
    show safePageSize 1 = 1
    rw [safePageSize, if_pos (by norm_num : (1 : ℚ) > 0)]
    norm_num
  refine ⟨h12, ?_, h1, ?_⟩
  · rw [h12]; norm_num
  · rw [h1]; norm_num

/-- Claim C5 as amended: the effective page equals the requested page when
positive and 1 otherwise; the effective page size is the requested value
clamped to at most 50 when positive, 20 when non-positive, and 12 when the
parameter is missing; the response reports exactly these effective values,
which always lie in (0, 50]. -/
theorem c5_paging_amended : ∀ (pp psp : Option ℚ) (sj : OffSearchJson),
    (searchRouteCall pp psp sj).page =
      (match pp with
       | some x => if x > 0 then x else 1
       | none => 1)
    ∧ (searchRouteCall pp psp sj).pageSize =
      (match psp with
       | some x => if x > 0 then min x 50 else 20
       | none => 12)
    ∧ 0 < (searchRouteCall pp psp sj).pageSize
    ∧ (searchRouteCall pp psp sj).pageSize ≤ 50 := by
  intro pp psp sj
  refine ⟨?_, ?_, ?_, ?_⟩
  · cases pp with
    | none =>
      show safePage 1 = 1
      simp [safePage]
    | some x =>
      show safePage x = if x > 0 then x else 1
      rfl
  · cases psp with
    | none =>
      show safePageSize 12 = 12
      rw [safePageSize, if_pos (by norm_num : (12 : ℚ) > 0)]
      norm_num
    | some x =>
      show safePageSize x = if x > 0 then min x 50 else 20
      rfl
  · cases psp with
    | none =>
      show 0 < safePageSize 12
      rw [safePageSize, if_pos (by norm_num : (12 : ℚ) > 0)]
      norm_num
    | some x =>
      show 0 < safePageSize x
      rw [safePageSize]
      by_cases hx : x > 0
      · rw [if_pos hx]
        exact lt_min hx (by norm_num)
      · rw [if_neg hx]
        norm_num
  · cases psp with
    | none =>
      show safePageSize 12 ≤ 50
      rw [safePageSize, if_pos (by norm_num : (12 : ℚ) > 0)]
      norm_num
    | some x =>
      show safePageSize x ≤ 50
      rw [safePageSize]
      by_cases hx : x > 0
      · rw [if_pos hx]
        exact min_le_right x 50
      · rw [if_neg hx]
        norm_num

/-- `Number(a || b)` with only the first field present picks it. -/
theorem pick100_some_none (x : ℚ) : pick100 (some x) none = x := by
  by_cases hx : x = 0 <;> simp [pick100, qTruthy, hx]

/-- The serving-size gram parse of the string `250g` is 250. -/
theorem servingGramsOf_250g : servingGramsOf "250g".toList = 250 := by
  show ((digitsToNat ['2', '5', '0'] : ℕ) : ℚ) = 250
  rw [show digitsToNat ['2', '5', '0'] = 250 from by decide]
  norm_num

/-- Claim C4: for a barcode product with per-100g calorie source value `c`
(an integer, with no base-field fallback) and serving size `250g`, the
derived second serving's calories equal `round(c * 2.5)`; in general, a
truthy `serving_size` yields exactly the baseline serving followed by one
derived serving whose nutrients are the baseline values scaled by
`servingGrams / 100` (the first digit run of the string, 100 when there is
none) and independently rounded. -/
theorem c4_serving_scale :
    (∀ (p : ProductJson) (n : Nutriments) (c : ℤ),
      p.nutriments = some n → n.energyKcal100g = some ((c : ℤ) : ℚ) →
      n.energyKcal = none → p.serving_size = some ("250g".toList) →
      ∃ s1, buildServings p = [serving100Of p, s1]
        ∧ s1.calories = jsRound ((c : ℚ) * (5/2)))
    ∧ (∀ (p : ProductJson) (s : List Char), p.serving_size = some s → s ≠ [] →
      buildServings p = [serving100Of p, derivedServingOf p s]
      ∧ (derivedServingOf p s).calories =
          jsRound (((per100Of p).calories : ℚ) * (servingGramsOf s / 100))
      ∧ (derivedServingOf p s).protein =
          jsRound (((per100Of p).protein : ℚ) * (servingGramsOf s / 100))
      ∧ (derivedServingOf p s).fat =
          jsRound (((per100Of p).fat : ℚ) * (servingGramsOf s / 100))
      ∧ (derivedServingOf p s).carbohydrate =
          jsRound (((per100Of p).carbohydrate : ℚ) * (servingGramsOf s / 100))) := by
  have main2 : ∀ (p : ProductJson) (s : List Char), p.serving_size = some s → s ≠ [] →
      buildServings p = [serving100Of p, derivedServingOf p s]
      ∧ (derivedServingOf p s).calories =
          jsRound (((per100Of p).calories : ℚ) * (servingGramsOf s / 100))
      ∧ (derivedServingOf p s).protein =
          jsRound (((per100Of p).protein : ℚ) * (servingGramsOf s / 100))
      ∧ (derivedServingOf p s).fat =
          jsRound (((per100Of p).fat : ℚ) * (servingGramsOf s / 100))
      ∧ (derivedServingOf p s).carbohydrate =
          jsRound (((per100Of p).carbohydrate : ℚ) * (servingGramsOf s / 100)) := by
    intro p s hss hs
    refine ⟨?_, rfl, rfl, rfl, rfl⟩
    unfold buildServings
    rw [hss]
    dsimp only
    rw [if_neg hs]
  constructor
  · intro p n c hn hkcal hfb hss
    have hb : (per100Of p).calories = c := by
      show jsRound (pick100 (p.nutriments.getD emptyNutriments).energyKcal100g
        (p.nutriments.getD emptyNutriments).energyKcal) = c
      rw [hn]
      dsimp only [Option.getD]
      rw [hkcal, hfb, pick100_some_none, jsRound_intCast]
    obtain ⟨heq, hcal, _⟩ := main2 p ("250g".toList) hss (by decide)
    refine ⟨derivedServingOf p ("250g".toList), heq, ?_⟩
    rw [hcal, hb, servingGramsOf_250g]
    norm_num
  · exact main2

/-- Claim C4 witness: a product with 101 kcal per 100 g and serving size
`250g` gets a derived serving of round(101 * 2.5) = 253 kcal. -/
theorem c4_serving_scale_witness :
    ∃ s1, buildServings pEx = [serving100Of pEx, s1] ∧ s1.calories = 253 := by
  obtain ⟨s1, h1, h2⟩ := c4_serving_scale.1 pEx nEx 101 rfl rfl rfl rfl
  refine ⟨s1, h1, ?_⟩
  rw [h2, jsRound]
  norm_num

/-- Claim C10: a successful barcode lookup returns the normalization of some
provider product; its servings list is non-empty with at most two entries,
always starts with the synthesized `100g` serving (description `100g`,
amount 100, unit `g`), and has a second entry exactly when the source
product carries a truthy (present, non-empty) `serving_size` string. -/
theorem c10_barcode_servings : ∀ (respond : String → OffStep) (urls : List String)
    (barcode : String) (prod : BarcodeProduct),
    findFoodByBarcode respond urls barcode = Except.ok prod →
    ∃ p, prod = buildBarcodeProduct barcode p
      ∧ prod.servings ≠ []
      ∧ prod.servings.length ≤ 2
      ∧ prod.servings.head? = some (serving100Of p)
      ∧ (serving100Of p).serving_description = "100g".toList
      ∧ (serving100Of p).metric_serving_amount = 100
      ∧ (serving100Of p).metric_serving_unit = "g".toList
      ∧ (prod.servings.length = 2 ↔ servingSizeTruthy p = true) := by
  intro respond urls barcode prod h
  unfold findFoodByBarcode at h
  rcases hoff : offLoop respond urls none none with ⟨resp, lastErr⟩
  rw [hoff] at h
  dsimp only at h
  cases resp with
  | none => simp at h
  | some r =>
    dsimp only at h
    cases hj : r.json with
    | none =>
      rw [hj] at h
      simp at h
    | some j =>
      rw [hj] at h
      dsimp only at h
      by_cases hf : j.statusFlag ≠ some 1
      · rw [if_pos hf] at h
        simp at h
      · rw [if_neg hf] at h
        cases hp : j.product with
        | none =>
          rw [hp] at h
          simp at h
        | some p =>
          rw [hp] at h
          dsimp only at h
          have hprod : prod = buildBarcodeProduct barcode p := by
            cases h
            rfl
          refine ⟨p, hprod, ?_⟩
          have hserv : prod.servings = buildServings p := by rw [hprod]; rfl
          rw [hserv]
          cases hss : p.serving_size with
          | none =>
            unfold buildServings
            rw [hss]
            refine ⟨by simp, by simp, rfl, rfl, rfl, rfl, ?_⟩
            simp [servingSizeTruthy, hss]
          | some s =>
            unfold buildServings
            rw [hss]
            dsimp only
            by_cases hse : s = []
            · rw [if_pos hse]
              refine ⟨by simp, by simp, rfl, rfl, rfl, rfl, ?_⟩
              simp [servingSizeTruthy, hss, hse]
            · rw [if_neg hse]
              refine ⟨by simp, by simp, rfl, rfl, rfl, rfl, ?_⟩
              simp [servingSizeTruthy, hss, hse]

/-- Claim C10 witness: a successful lookup of `pEx` (which has a `250g`
serving size) yields two servings headed by the synthesized 100g serving. -/
theorem c10_barcode_servings_witness :
    ∃ p, buildBarcodeProduct "555" pEx = buildBarcodeProduct "555" p
      ∧ (buildBarcodeProduct "555" pEx).servings ≠ []
      ∧ (buildBarcodeProduct "555" pEx).servings.length ≤ 2
      ∧ (buildBarcodeProduct "555" pEx).servings.head? = some (serving100Of p)
      ∧ ((buildBarcodeProduct "555" pEx).servings.length = 2 ↔ servingSizeTruthy p = true) := by
  obtain ⟨p, hprod, hne, hle, hhead, _, _, _, hiff⟩ :=
    c10_barcode_servings offRespondOk ["u"] "555" (buildBarcodeProduct "555" pEx) rfl
  exact ⟨p, hprod, hne, hle, hhead, hiff⟩

/-! Helper lemmas for the Gemini fallback loop (claim C1). -/

/-- `findFirst` only returns elements satisfying the test. -/
theorem findFirst_some {α : Type} (f : α → Bool) :
    ∀ (l : List α) (a : α), findFirst f l = some a → f a = true := by
  intro l
  induction l with
  | nil => intro a h; cases h
  | cons b bs ih =>
    intro a h
    by_cases hb : f b = true
    · rw [findFirst, if_pos hb] at h
      cases h
      exact hb
    · rw [findFirst, if_neg hb] at h
      exact ih a h

/-- The inner version loop is the linear scan over its (model, version) pairs. -/
theorem geminiInner_eq_linear (respond : String → String → GemResp) (m : String) :
    ∀ (vs : List String) (r : Option GemResp) (e : Option String),
      geminiInner respond m vs r e = linearGo respond (vs.map (fun v => (m, v))) r e := by
  intro vs
  induction vs with
  | nil => intro r e; rfl
  | cons v vs ih =>
    intro r e
    show geminiInner respond m (v :: vs) r e
      = linearGo respond ((m, v) :: vs.map (fun v => (m, v))) r e
    simp only [geminiInner, linearGo]
    rw [ih]

/-- Splitting a linear scan at an append point, provided the incoming
response is not already successful. -/
theorem linearGo_append (respond : String → String → GemResp) :
    ∀ (l1 l2 : List (String × String)) (r : Option GemResp) (e : Option String),
      optOk r = false →
      linearGo respond (l1 ++ l2) r e =
        (let o1 := linearGo respond l1 r e
         if optOk o1.1 then o1
         else
           let o2 := linearGo respond l2 o1.1 o1.2.1
           (o2.1, o2.2.1, o1.2.2 ++ o2.2.2)) := by
  intro l1
  induction l1 with
  | nil =>
    intro l2 r e hr
    simp only [List.nil_append, linearGo]
    rw [if_neg (by simp [hr])]
  | cons p l1 ih =>
    intro l2 r e hr
    by_cases h : ok2xx (respond p.1 p.2) = true
    · simp [linearGo, h, optOk]
    · have hr' : optOk (some (respond p.1 p.2)) = false := by
        simpa [optOk] using h
      simp only [List.cons_append, linearGo, if_neg h]
      simp only [List.append_eq]
      rw [ih l2 (some (respond p.1 p.2)) (some (respond p.1 p.2).text) hr']
      rcases hq : linearGo respond l1 (some (respond p.1 p.2))
        (some (respond p.1 p.2).text) with ⟨q1, q2, q3⟩
      by_cases hq1 : optOk q1 = true
      · simp [hq1]
      · rcases ho2 : linearGo respond l2 q1 q2 with ⟨a, b, c⟩
        simp [hq1, ho2]

/-- The two nested loops of `callGemini` equal the linear scan over the
nested (model, version) pairs. -/
theorem geminiOuter_eq_linear (respond : String → String → GemResp) (versions : List String) :
    ∀ (ms : List String) (r : Option GemResp) (e : Option String),
      optOk r = false →
      geminiOuter respond versions ms r e =
        linearGo respond (nestedPairs ms versions) r e := by
  intro ms
  induction ms with
  | nil => intro r e hr; rfl
  | cons m ms ih =>
    intro r e hr
    show geminiOuter respond versions (m :: ms) r e
      = linearGo respond (versions.map (fun v => (m, v)) ++ nestedPairs ms versions) r e
    rw [linearGo_append respond _ _ _ _ hr]
    simp only [geminiOuter]
    rw [geminiInner_eq_linear respond m versions r e]
    rcases hq : linearGo respond (versions.map (fun v => (m, v))) r e with ⟨q1, q2, q3⟩
    dsimp only
    by_cases hq1 : optOk q1 = true
    · rw [if_pos hq1, if_pos hq1]
    · have hq1' : optOk q1 = false := by
        revert hq1; cases optOk q1 <;> simp
      rw [if_neg hq1, if_neg hq1, ih q1 q2 hq1']

/-- The attempts a linear scan issues: the pairs up to and including the
first success. -/
theorem linearGo_attempts (respond : String → String → GemResp) :
    ∀ (ps : List (String × String)) (r : Option GemResp) (e : Option String),
      (linearGo respond ps r e).2.2 =
        takeThrough (fun p => ok2xx (respond p.1 p.2)) ps := by
  intro ps
  induction ps with
  | nil => intro r e; rfl
  | cons p ps ih =>
    intro r e
    by_cases h : ok2xx (respond p.1 p.2) = true
    · simp [linearGo, takeThrough, h]
    · simp [linearGo, takeThrough, h, ih]

/-- A linear scan whose pair list contains a success stops at the first one
and returns its response. -/
theorem linearGo_success (respond : String → String → GemResp) :
    ∀ (ps : List (String × String)) (r : Option GemResp) (e : Option String) (p : String × String),
      findFirst (fun p => ok2xx (respond p.1 p.2)) ps = some p →
      (linearGo respond ps r e).1 = some (respond p.1 p.2) := by
  intro ps
  induction ps with
  | nil => intro r e p h; cases h
  | cons q ps ih =>
    intro r e p h
    by_cases hq : ok2xx (respond q.1 q.2) = true
    · rw [findFirst, if_pos hq] at h
      cases h
      simp [linearGo, hq]
    · rw [findFirst, if_neg hq] at h
      simp only [linearGo, if_neg hq]
      exact ih _ _ p h

/-- A linear scan with no success ends holding the last pair's failed
response and its body text as the last error. -/
theorem linearGo_failure (respond : String → String → GemResp) :
    ∀ (ps : List (String × String)) (r : Option GemResp) (e : Option String)
      (lp : String × String),
      findFirst (fun p => ok2xx (respond p.1 p.2)) ps = none →
      lastOf ps = some lp →
      (linearGo respond ps r e).1 = some (respond lp.1 lp.2)
      ∧ (linearGo respond ps r e).2.1 = some (respond lp.1 lp.2).text
      ∧ ok2xx (respond lp.1 lp.2) = false := by
  intro ps
  induction ps with
  | nil => intro r e lp _ hl; cases hl
  | cons q ps ih =>
    intro r e lp hf hl
    have hq : ¬ ok2xx (respond q.1 q.2) = true := by
      intro hq
      rw [findFirst, if_pos hq] at hf
      cases hf
    rw [findFirst, if_neg hq] at hf
    cases ps with
    | nil =>
      cases hl
      refine ⟨?_, ?_, ?_⟩
      · simp [linearGo, hq]
      · simp [linearGo, hq]
      · revert hq; cases ok2xx (respond q.1 q.2) <;> simp
    | cons q2 ps2 =>
      have hl' : lastOf (q2 :: ps2) = some lp := hl
      simp only [linearGo, if_neg hq]
      exact ih (some (respond q.1 q.2)) (some (respond q.1 q.2).text) lp hf hl'

/-- Claim C1: `callGemini` issues attempts for the (model, version) pairs in
exactly the nested order (models outer, versions inner) up to and including
the first 2xx attempt; when some pair succeeds, the result is the text part
of the first successful pair's response and all later pairs are skipped;
when every pair fails, it throws carrying the last attempt's error body
(when that body is non-empty, the empty string being falsy in the
`lastError || "Gemini error"` fallback). -/
theorem c1_gemini_fallback : ∀ (respond : String → String → GemResp)
    (models versions : List String),
    (callGemini respond models versions).2 =
      takeThrough (fun p => ok2xx (respond p.1 p.2)) (nestedPairs models versions)
    ∧ (∀ p, findFirst (fun p => ok2xx (respond p.1 p.2)) (nestedPairs models versions) = some p →
        (callGemini respond models versions).1 = Except.ok (respond p.1 p.2).partText)
    ∧ (∀ lp, findFirst (fun p => ok2xx (respond p.1 p.2)) (nestedPairs models versions) = none →
        lastOf (nestedPairs models versions) = some lp →
        (respond lp.1 lp.2).text ≠ "" →
        (callGemini respond models versions).1 = Except.error (respond lp.1 lp.2).text) := by
  intro respond models versions
  have hout : geminiOuter respond versions models none none =
      linearGo respond (nestedPairs models versions) none none :=
    geminiOuter_eq_linear respond versions models none none rfl
  refine ⟨?_, ?_, ?_⟩
  · have hatt := linearGo_attempts respond (nestedPairs models versions) none none
    rcases ho : linearGo respond (nestedPairs models versions) none none with ⟨a, b, c⟩
    rw [ho] at hatt
    simp only [callGemini]
    rw [hout, ho]
    dsimp only
    cases a with
    | none => exact hatt
    | some rr =>
      dsimp only
      by_cases h : ok2xx rr = true
      · rw [if_pos h]
        exact hatt
      · rw [if_neg h]
        exact hatt
  · intro p hp
    have hs := linearGo_success respond (nestedPairs models versions) none none p hp
    have hok := findFirst_some _ _ _ hp
    rcases ho : linearGo respond (nestedPairs models versions) none none with ⟨a, b, c⟩
    rw [ho] at hs
    simp only at hs
    simp only [callGemini]
    rw [hout, ho]
    dsimp only
    rw [hs]
    dsimp only
    rw [if_pos hok]
  · intro lp hn hl hne
    have hf := linearGo_failure respond (nestedPairs models versions) none none lp hn hl
    rcases ho : linearGo respond (nestedPairs models versions) none none with ⟨a, b, c⟩
    rw [ho] at hf
    obtain ⟨h1, h2, h3⟩ := hf
    simp only at h1 h2
    simp only [callGemini]
    rw [hout, ho]
    dsimp only
    rw [h1]
    dsimp only
    rw [if_neg (by simp [h3]), h2]
    simp only [jsOrS]
    rw [if_neg hne]

/-- Claim C1 witness: with models `[a, b]` and versions `[x, y]` and a 2xx
only at `(b, x)`, the attempts are `(a,x), (a,y), (b,x)` and the result is
the success text; with all attempts failing with body `bad`, the error
carries `bad`. -/
theorem c1_gemini_fallback_witness :
    (callGemini gRespondEx ["a", "b"] ["x", "y"]).2 = [("a", "x"), ("a", "y"), ("b", "x")]
    ∧ (callGemini gRespondEx ["a", "b"] ["x", "y"]).1 = Except.ok "OK"
    ∧ (callGemini gFailEx ["a"] ["x", "y"]).1 = Except.error "bad" := by
  refine ⟨?_, ?_, ?_⟩
  · rw [(c1_gemini_fallback gRespondEx ["a", "b"] ["x", "y"]).1]
    rfl
  · exact (c1_gemini_fallback gRespondEx ["a", "b"] ["x", "y"]).2.1 ("b", "x") rfl
  · exact (c1_gemini_fallback gFailEx ["a"] ["x", "y"]).2.2 ("a", "y") rfl rfl (by decide)

/-! Helper lemmas for the barcode route (claim C3). -/

/-- A list is a prefix of itself extended. -/
theorem isPrefixOf_append_self : ∀ (l r : List Char), l.isPrefixOf (l ++ r) = true := by
  intro l r
  induction l with
  | nil => simp [List.isPrefixOf]
  | cons a t ih => simp [List.isPrefixOf, ih]

/-- `hasSub` finds a needle standing at the front. -/
theorem hasSub_append_self : ∀ (n r : List Char), hasSub n (n ++ r) = true := by
  intro n r
  cases n with
  | nil =>
    cases r with
    | nil => rfl
    | cons c t => simp [hasSub, List.isPrefixOf]
  | cons a t =>
    show (List.isPrefixOf (a :: t) ((a :: t) ++ r) || hasSub (a :: t) (t ++ r)) = true
    rw [isPrefixOf_append_self]
    rfl

/-- The not-found error message contains the router's marker. -/
theorem hasSub_notFound (barcode : String) :
    hasSub notFoundMarker ("Producto no encontrado para código: " ++ barcode).toList = true := by
  have hsplit : ("Producto no encontrado para código: " ++ barcode).toList
      = notFoundMarker ++ (" para código: ".toList ++ barcode.toList) := by
    show "Producto no encontrado para código: ".toList ++ barcode.toList = _
    rw [show "Producto no encontrado para código: ".toList
      = notFoundMarker ++ " para código: ".toList from by decide]
    simp
  rw [hsplit]
  exact hasSub_append_self _ _

/-- The `lastError` of the base-URL loop is its initial value or the error
text of one of the URLs tried. -/
theorem offLoop_lastErr (respond : String → OffStep) :
    ∀ (urls : List String) (r : Option OffResponse) (e : Option String),
      (offLoop respond urls r e).2 = e
      ∨ ∃ u ∈ urls, (offLoop respond urls r e).2 = some (errTextOf (respond u)) := by
  intro urls
  induction urls with
  | nil => intro r e; left; rfl
  | cons u us ih =>
    intro r e
    cases hu : respond u with
    | transportFail m =>
      have hred : offLoop respond (u :: us) r e = offLoop respond us r (some m) := by
        simp only [offLoop, hu]
      rw [hred]
      rcases ih r (some m) with h | ⟨u', hu', h⟩
      · right
        exact ⟨u, List.mem_cons_self u us, by rw [h, hu]; rfl⟩
      · right
        exact ⟨u', List.mem_cons_of_mem u hu', h⟩
    | resp rr =>
      by_cases hs : rr.status < 200 ∨ 300 ≤ rr.status
      · have hred : offLoop respond (u :: us) r e
            = offLoop respond us (some rr) (some ("Open Food Facts error: " ++ rr.text)) := by
          simp only [offLoop, hu]
          rw [if_pos hs]
        rw [hred]
        rcases ih (some rr) (some ("Open Food Facts error: " ++ rr.text)) with h | ⟨u', hu', h⟩
        · right
          exact ⟨u, List.mem_cons_self u us, by rw [h, hu]; rfl⟩
        · right
          exact ⟨u', List.mem_cons_of_mem u hu', h⟩
      · cases hj : rr.json with
        | none =>
          have hred : offLoop respond (u :: us) r e
              = offLoop respond us (some rr) (some ("Open Food Facts error: " ++ rr.text)) := by
            simp only [offLoop, hu]
            rw [if_neg hs, hj]
          rw [hred]
          rcases ih (some rr) (some ("Open Food Facts error: " ++ rr.text)) with h | ⟨u', hu', h⟩
          · right
            exact ⟨u, List.mem_cons_self u us, by rw [h, hu]; rfl⟩
          · right
            exact ⟨u', List.mem_cons_of_mem u hu', h⟩
        | some j =>
          have hred : offLoop respond (u :: us) r e = (some rr, e) := by
            simp only [offLoop, hu]
            rw [if_neg hs, hj]
          rw [hred]
          left
          rfl

/-- Claim C3 counterexample: a provider response that is non-2xx (HTTP 500)
yet carries parseable JSON with status flag 0 makes the barcode route answer
404, not the claimed 500 — the code checks the status flag on the final
response regardless of its HTTP status, and the router classifies by the
not-found marker in the error message. -/
theorem c3_barcode_counterexample :
    (∃ rr, offRespondNF "u" = OffStep.resp rr ∧ rr.status = 500
      ∧ ∃ j, rr.json = some j ∧ j.statusFlag ≠ some 1)
    ∧ barcodeRouteStatus offRespondNF ["u"] "123" = 404
    ∧ ¬(barcodeRouteStatus offRespondNF ["u"] "123" = 500) := by
  refine ⟨⟨_, rfl, rfl, _, rfl, by decide⟩, by decide, by decide⟩

/-- Claim C3 as amended: whenever the base-URL loop ends with a response
whose body parsed and whose status flag is not 1 — in particular every 2xx
parseable not-found response — the route answers 404; when the final
response has no parseable JSON (non-2xx or unparseable body alike), the
route answers 500, provided no upstream error text itself contains the
not-found marker string. -/
theorem c3_barcode_amended : ∀ (respond : String → OffStep) (urls : List String)
    (barcode : String),
    (∀ r j, (offLoop respond urls none none).1 = some r → r.json = some j →
      j.statusFlag ≠ some 1 → barcodeRouteStatus respond urls barcode = 404)
    ∧ ((∀ u ∈ urls, hasSub notFoundMarker ((errTextOf (respond u)).toList) = false) →
      ((offLoop respond urls none none).1 = none ∨
        ∃ r, (offLoop respond urls none none).1 = some r ∧ r.json = none) →
      barcodeRouteStatus respond urls barcode = 500) := by
  intro respond urls barcode
  constructor
  · intro r j h1 hj hflag
    unfold barcodeRouteStatus findFoodByBarcode
    rcases hoff : offLoop respond urls none none with ⟨resp, lastErr⟩
    rw [hoff] at h1
    dsimp only at h1
    subst h1
    dsimp only
    rw [hj]
    dsimp only
    rw [if_pos hflag]
    dsimp only
    rw [if_pos (hasSub_notFound barcode)]
  · intro hfree hjson
    unfold barcodeRouteStatus findFoodByBarcode
    rcases hoff : offLoop respond urls none none with ⟨resp, lastErr⟩
    rw [hoff] at hjson
    dsimp only at hjson
    have hmsg : hasSub notFoundMarker (lastErr.getD "Open Food Facts error").data = false := by
      rcases offLoop_lastErr respond urls none none with h | ⟨u, hu, h⟩
      · rw [hoff] at h
        dsimp only at h
        rw [h]
        decide
      · rw [hoff] at h
        dsimp only at h
        rw [h]
        exact hfree u hu
    rcases hjson with h | ⟨r, hr, hj⟩
    · subst h
      dsimp only
      rw [if_neg (by simp [hmsg])]
    · subst hr
      dsimp only
      rw [hj]
      dsimp only
      rw [if_neg (by simp [hmsg])]

/-- Claim C3 amended witness: the 500-with-flag-0 responder yields 404; a
responder failing with an unparseable 500 body `boom` yields 500. -/
theorem c3_barcode_amended_witness :
    barcodeRouteStatus offRespondNF ["u"] "9" = 404
    ∧ barcodeRouteStatus offRespondBad ["u"] "9" = 500 := by
  constructor
  · exact (c3_barcode_amended offRespondNF ["u"] "9").1
      { status := 500, text := "boom", json := some { statusFlag := some 0, product := none } }
      { statusFlag := some 0, product := none } rfl rfl (by decide)
  · refine (c3_barcode_amended offRespondBad ["u"] "9").2 ?_ ?_
    · intro u hu
      have : u = "u" := by simpa using hu
      subst this
      decide
    · exact Or.inr ⟨{ status := 500, text := "boom", json := none }, rfl, rfl⟩

/-! Helper lemmas for the JSON-extraction routine (claim C7). -/

/-- `dropWhile` keeps a list whose head fails the test. -/
theorem dropWhile_cons_false {α : Type} {p : α → Bool} {a : α} {l : List α}
    (h : p a = false) : List.dropWhile p (a :: l) = a :: l := by
  simp [List.dropWhile, h]

/-- `dropWhile` drops a head satisfying the test. -/
theorem dropWhile_cons_true {α : Type} {p : α → Bool} {a : α} {l : List α}
    (h : p a = true) : List.dropWhile p (a :: l) = List.dropWhile p l := by
  simp [List.dropWhile, h]

/-- A fully-dropped prefix does not affect `dropWhile` over an append. -/
theorem dropWhile_append_all {α : Type} {p : α → Bool} :
    ∀ {l1 : List α} (l2 : List α), (∀ x ∈ l1, p x = true) →
      List.dropWhile p (l1 ++ l2) = List.dropWhile p l2 := by
  intro l1
  induction l1 with
  | nil => intro l2 _; rfl
  | cons a t ih =>
    intro l2 h
    rw [List.cons_append, dropWhile_cons_true (h a (List.mem_cons_self a t))]
    exact ih l2 (fun x hx => h x (List.mem_cons_of_mem a hx))

/-- When `dropWhile` stops inside the prefix, the append passes through. -/
theorem dropWhile_append_ne {α : Type} {p : α → Bool} :
    ∀ {l1 : List α} (l2 : List α), List.dropWhile p l1 ≠ [] →
      List.dropWhile p (l1 ++ l2) = List.dropWhile p l1 ++ l2 := by
  intro l1
  induction l1 with
  | nil => intro l2 h; exact absurd rfl h
  | cons a t ih =>
    intro l2 h
    by_cases ha : p a = true
    · rw [dropWhile_cons_true ha] at h
      rw [List.cons_append, dropWhile_cons_true ha, dropWhile_cons_true ha]
      exact ih l2 h
    · have ha' : p a = false := by revert ha; cases p a <;> simp
      rw [List.cons_append, dropWhile_cons_false ha', dropWhile_cons_false ha']
      rfl

/-- If `dropWhile` empties a list, every element satisfied the test. -/
theorem all_of_dropWhile_nil {α : Type} {p : α → Bool} :
    ∀ {l : List α}, List.dropWhile p l = [] → ∀ x ∈ l, p x = true := by
  intro l
  induction l with
  | nil => intro _ x hx; cases hx
  | cons a t ih =>
    intro h x hx
    by_cases ha : p a = true
    · rw [dropWhile_cons_true ha] at h
      rcases List.mem_cons.mp hx with rfl | hx'
      · exact ha
      · exact ih h x hx'
    · have ha' : p a = false := by revert ha; cases p a <;> simp
      rw [dropWhile_cons_false ha'] at h
      cases h

/-- The head surviving a `dropWhile` fails the test. -/
theorem head_false_of_dropWhile {α : Type} {p : α → Bool} :
    ∀ {l : List α} {c : α} {t : List α}, List.dropWhile p l = c :: t → p c = false := by
  intro l
  induction l with
  | nil => intro c t h; cases h
  | cons a t0 ih =>
    intro c t h
    by_cases ha : p a = true
    · rw [dropWhile_cons_true ha] at h
      exact ih h
    · have ha' : p a = false := by revert ha; cases p a <;> simp
      rw [dropWhile_cons_false ha'] at h
      cases h
      exact ha'

/-- The head surviving a `dropWhile` belongs to the list. -/
theorem mem_of_dropWhile_cons {α : Type} {p : α → Bool} :
    ∀ {l : List α} {c : α} {t : List α}, List.dropWhile p l = c :: t → c ∈ l := by
  intro l
  induction l with
  | nil => intro c t h; cases h
  | cons a t0 ih =>
    intro c t h
    by_cases ha : p a = true
    · rw [dropWhile_cons_true ha] at h
      exact List.mem_cons_of_mem a (ih h)
    · have ha' : p a = false := by revert ha; cases p a <;> simp
      rw [dropWhile_cons_false ha'] at h
      cases h
      exact List.mem_cons_self a t0

/-- An all-alphabetic run is consumed up to the following newline. -/
theorem dropWhile_alpha_append :
    ∀ (tag : List Char) (y : List Char), tag.all Char.isAlpha = true →
      List.dropWhile Char.isAlpha (tag ++ '\n' :: y) = '\n' :: y := by
  intro tag
  induction tag with
  | nil =>
    intro y _
    exact dropWhile_cons_false (by decide)
  | cons a t ih =>
    intro y h
    rw [List.all_cons, Bool.and_eq_true] at h
    rw [List.cons_append, dropWhile_cons_true h.1]
    exact ih y h.2

/-- Mismatching heads defeat `isPrefixOf`. -/
theorem isPrefixOf_cons_ne {a b : Char} {l1 l2 : List Char} (h : a ≠ b) :
    List.isPrefixOf (a :: l1) (b :: l2) = false := by
  simp [List.isPrefixOf, h]

/-- `parseStep` rejects any value starting with a backtick, for any fuel. -/
theorem parseStep_backtick : ∀ (fuel : Nat) (t : List Char),
    parseStep fuel (PReq.val (btick :: t)) = none := by
  intro fuel t
  cases fuel with
  | zero => rfl
  | succ n => rfl

/-- `JSON.parse` rejects any input starting with a backtick. -/
theorem jsonParse_backtick : ∀ (t : List Char), jsonParse (btick :: t) = none := by
  intro t
  unfold jsonParse
  rw [dropWhile_cons_false (show isJsonWs btick = false from by decide)]
  rw [parseStep_backtick]

/-- `JSON.parse` rejects the empty input. -/
theorem jsonParse_nil : jsonParse [] = none := rfl

/-- `trim` of the empty list is empty. -/
theorem trimChars_nil : trimChars [] = [] := rfl

/-- `trim` keeps a list with non-whitespace first and last characters. -/
theorem trim_keep (a b : Char) (l : List Char) (ha : wsB a = false) (hb : wsB b = false) :
    trimChars (a :: (l ++ [b])) = a :: (l ++ [b]) := by
  unfold trimChars
  rw [dropWhile_cons_false ha]
  rw [show (a :: (l ++ [b])).reverse = b :: (l.reverse ++ [a]) from by simp]
  rw [dropWhile_cons_false hb]
  rw [show (b :: (l.reverse ++ [a])).reverse = a :: (l ++ [b]) from by simp]

/-- Trailing whitespace is invisible to `trim`. -/
theorem trimChars_snoc_ws (l : List Char) (c : Char) (hc : wsB c = true) :
    trimChars (l ++ [c]) = trimChars l := by
  unfold trimChars
  cases hdl : List.dropWhile wsB l with
  | nil =>
    rw [dropWhile_append_all [c] (all_of_dropWhile_nil hdl),
      dropWhile_cons_true hc]
    rfl
  | cons y ys =>
    rw [dropWhile_append_ne [c] (by rw [hdl]; simp), hdl]
    rw [show ((y :: ys) ++ [c]).reverse = c :: (y :: ys).reverse from by simp]
    rw [dropWhile_cons_true hc]

/-- A non-empty `dropWhile` fixes the head of the trimmed list. -/
theorem trim_head_strong (L : List Char) (c : Char) (t : List Char)
    (h : List.dropWhile wsB L = c :: t) : ∃ t', trimChars L = c :: t' := by
  have hpc : wsB c = false := head_false_of_dropWhile h
  unfold trimChars
  rw [h]
  rw [show (c :: t).reverse = t.reverse ++ [c] from by simp]
  cases hdt : List.dropWhile wsB t.reverse with
  | nil =>
    rw [dropWhile_append_all [c] (all_of_dropWhile_nil hdt), dropWhile_cons_false hpc]
    exact ⟨[], by simp⟩
  | cons y ys =>
    rw [dropWhile_append_ne [c] (by rw [hdt]; simp), hdt]
    exact ⟨(y :: ys).reverse, by simp⟩

/-- When the trimmed text does not start with a backtick, the fence
stripping phase leaves it untouched. -/
theorem fenceCleaned_no_fence (text : List Char) (c : Char) (t : List Char)
    (h : trimChars text = c :: t) (hc : c ≠ btick) :
    fenceCleaned text = trimChars text := by
  have hfc : fence3.isPrefixOf (trimChars text) = false := by
    rw [h]
    exact isPrefixOf_cons_ne (Ne.symm hc)
  have hfj : fenceJsonTag.isPrefixOf (trimChars text) = false := by
    rw [h]
    exact isPrefixOf_cons_ne (Ne.symm hc)
  have hA : ¬(fence3.isPrefixOf (trimChars text) = true) := by
    rw [hfc]
    exact Bool.false_ne_true
  have hB : ¬(fenceJsonTag.isPrefixOf (trimChars text) = true) := by
    rw [hfj]
    exact Bool.false_ne_true
  simp only [fenceCleaned]
  rw [if_neg hA, if_neg hB]

/-- Claim C7: (1) a parseable document wrapped in a triple-backtick fence,
with or without an alphabetic language tag, parses to exactly the same value
as the unwrapped document; (2) leading prose (containing no braces and no
backtick) followed by a `{...}` block still extracts and parses that block
when the direct parse fails; (3) when the direct parse, the fence-stripped
parse and the brace-substring parse all fail, the routine returns null. -/
theorem c7_json_extraction :
    (∀ (d tag : List Char) (v : Json), tag.all Char.isAlpha = true →
      jsonParse (trimChars d) = some v →
      parseGeminiJson (wrapFence tag d) = parseGeminiJson d
      ∧ parseGeminiJson d = some v)
    ∧ (∀ (p mid : List Char) (w : Json),
      (∀ c ∈ p, c ≠ '{' ∧ c ≠ '}' ∧ c ≠ btick) →
      jsonParse (trimChars (p ++ ('{' :: (mid ++ ['}'])))) = none →
      jsonParse ('{' :: (mid ++ ['}'])) = some w →
      parseGeminiJson (p ++ ('{' :: (mid ++ ['}']))) = some w)
    ∧ (∀ t : List Char, jsonParse (trimChars t) = none →
      jsonParse (fenceCleaned t) = none →
      (braceMatch t).bind jsonParse = none →
      parseGeminiJson t = none) := by
  refine ⟨?_, ?_, ?_⟩
  · intro d tag v htag hp
    cases hL : trimChars d with
    | nil =>
      rw [hL, jsonParse_nil] at hp
      cases hp
    | cons c t =>
      have hcb : c ≠ btick := by
        intro hc
        rw [hc] at hL
        rw [hL, jsonParse_backtick] at hp
        cases hp
      have hdne : d ≠ [] := by
        intro hd
        rw [hd, trimChars_nil] at hL
        cases hL
      have hB : ¬(fenceJsonTag.isPrefixOf (trimChars d) = true) := by
        have hx : fenceJsonTag.isPrefixOf (c :: t) = false := isPrefixOf_cons_ne (Ne.symm hcb)
        rw [hL, hx]
        exact Bool.false_ne_true
      have hclean_d : fenceCleaned d = trimChars d :=
        fenceCleaned_no_fence d c t hL hcb
      have hund : parseGeminiJson d = some v := by
        unfold parseGeminiJson
        rw [if_neg hdne, hclean_d, hp]
      have hWform : wrapFence tag d
          = btick :: ((btick :: btick :: (tag ++ ['\n'] ++ d ++ ['\n'] ++ [btick, btick])) ++ [btick]) := by
        simp [wrapFence, fence3]
      have htrimW : trimChars (wrapFence tag d) = wrapFence tag d := by
        rw [hWform]
        exact trim_keep _ _ _ (by decide) (by decide)
      have hfcW : fence3.isPrefixOf (wrapFence tag d) = true := by
        show List.isPrefixOf (btick :: btick :: btick :: [])
          (btick :: btick :: btick :: (tag ++ ['\n'] ++ d ++ ['\n'] ++ fence3)) = true
        simp [List.isPrefixOf]
      have hlead : stripLead (wrapFence tag d) = d ++ ['\n'] ++ fence3 := by
        unfold stripLead
        rw [show wrapFence tag d
          = btick :: btick :: btick :: (tag ++ '\n' :: (d ++ ['\n'] ++ fence3)) from by
          simp [wrapFence, fence3]]
        rw [show List.drop 3 (btick :: btick :: btick :: (tag ++ '\n' :: (d ++ ['\n'] ++ fence3)))
          = tag ++ '\n' :: (d ++ ['\n'] ++ fence3) from rfl]
        rw [dropWhile_alpha_append tag _ htag]
        rfl
      have htrail : stripTrail3 (d ++ ['\n'] ++ fence3) = d ++ ['\n'] := by
        unfold stripTrail3
        rw [show (d ++ ['\n'] ++ fence3).reverse
          = btick :: btick :: btick :: ('\n' :: d.reverse) from by simp [fence3]]
        rw [if_pos (show List.take 3 (btick :: btick :: btick :: ('\n' :: d.reverse))
          = fence3 from rfl)]
        simp
      have hsnoc : trimChars (d ++ ['\n']) = trimChars d :=
        trimChars_snoc_ws d '\n' (by decide)
      have hcleanW : fenceCleaned (wrapFence tag d) = trimChars d := by
        simp only [fenceCleaned]
        rw [htrimW, if_pos hfcW, hlead, htrail, hsnoc, if_neg hB]
      have hWne : wrapFence tag d ≠ [] := by
        rw [hWform]
        simp
      have hwrap : parseGeminiJson (wrapFence tag d) = some v := by
        unfold parseGeminiJson
        rw [if_neg hWne, hcleanW, hp]
      exact ⟨hwrap.trans hund.symm, hund⟩
  · intro p mid w hp hdirect hjw
    have hjne : ('{' :: (mid ++ ['}']) : List Char) ≠ [] := by simp
    have htne : p ++ ('{' :: (mid ++ ['}'])) ≠ [] := by simp
    have hhead : ∃ c t', trimChars (p ++ ('{' :: (mid ++ ['}']))) = c :: t' ∧ c ≠ btick := by
      cases hdp : List.dropWhile wsB p with
      | nil =>
        have hdw : List.dropWhile wsB (p ++ ('{' :: (mid ++ ['}']))) = '{' :: (mid ++ ['}']) := by
          rw [dropWhile_append_all _ (all_of_dropWhile_nil hdp)]
          exact dropWhile_cons_false (by decide)
        obtain ⟨t', ht'⟩ := trim_head_strong _ _ _ hdw
        exact ⟨'{', t', ht', by decide⟩
      | cons c t =>
        have hdw : List.dropWhile wsB (p ++ ('{' :: (mid ++ ['}'])))
            = c :: (t ++ ('{' :: (mid ++ ['}']))) := by
          rw [dropWhile_append_ne _ (by rw [hdp]; simp), hdp]
          rfl
        obtain ⟨t', ht'⟩ := trim_head_strong _ _ _ hdw
        exact ⟨c, t', ht', (hp c (mem_of_dropWhile_cons hdp)).2.2⟩
    obtain ⟨c, t', ht', hcb⟩ := hhead
    have hclean : fenceCleaned (p ++ ('{' :: (mid ++ ['}'])))
        = trimChars (p ++ ('{' :: (mid ++ ['}']))) :=
      fenceCleaned_no_fence _ c t' ht' hcb
    have hbm : braceMatch (p ++ ('{' :: (mid ++ ['}']))) = some ('{' :: (mid ++ ['}'])) := by
      simp only [braceMatch]
      rw [show List.dropWhile (fun c => c != '{') (p ++ ('{' :: (mid ++ ['}'])))
          = '{' :: (mid ++ ['}']) from by
        rw [dropWhile_append_all _ (fun x hx => by
          have := (hp x hx).1
          simp [this])]
        exact dropWhile_cons_false (by decide)]
      rw [show ('{' :: (mid ++ ['}'])).reverse = '}' :: (mid.reverse ++ ['{']) from by simp]
      rw [@dropWhile_cons_false Char (fun c => c != '}') '}' (mid.reverse ++ ['{']) (by decide)]
      rw [show ('}' :: (mid.reverse ++ ['{'])).reverse = '{' :: (mid ++ ['}']) from by simp]
      rw [if_neg (by simp)]
    unfold parseGeminiJson
    rw [if_neg htne, hclean, hdirect, hbm]
    exact hjw
  · intro t h1 h2 h3
    unfold parseGeminiJson
    by_cases ht : t = []
    · rw [if_pos ht]
    · rw [if_neg ht, h2]
      cases hb : braceMatch t with
      | none => rfl
      | some m =>
        rw [hb] at h3
        exact h3

/-- Claim C7 witness: the document `13` wrapped in a `json`-tagged fence
parses like the bare document; prose `note: ` followed by a JSON object
extracts the object; the input `hello` yields null. -/
theorem c7_json_extraction_witness :
    parseGeminiJson (wrapFence "json".toList "13".toList) = parseGeminiJson "13".toList
    ∧ parseGeminiJson ("note: ".toList ++ ('{' :: ("\"a\":1".toList ++ ['}'])))
        = some (Json.obj [("a".toList, Json.num 1 0)])
    ∧ parseGeminiJson "hello".toList = none := by
  refine ⟨?_, ?_, ?_⟩
  · exact (c7_json_extraction.1 "13".toList "json".toList (Json.num 13 0)
      (by decide) rfl).1
  · exact c7_json_extraction.2.1 "note: ".toList "\"a\":1".toList
      (Json.obj [("a".toList, Json.num 1 0)]) (by decide) rfl rfl
  · exact c7_json_extraction.2.2 "hello".toList rfl rfl rfl
